import Mathlib

/-!
Verification of the unix network shim (`src/system/unix/network.c`) of
zenoh-pico: endpoint resolution, TCP open with multi-address connect
fallback, UDP open, and the exact-length read loops.

The C functions are shallowly embedded: every OS call outcome
(`socket`, `setsockopt`, `connect`, `getaddrinfo`, `recv`) is a
parameter of the Lean model, and the model mirrors the C control flow
on those outcomes.  Side effects that the properties are about (which
descriptors were closed, which linger option was passed, which list
nodes were freed) are returned explicitly.
-/

/-- Result type modelling `_zn_socket_result_t`: `tag` is `_z_res_t_OK`
with `value.socket`, or `_z_res_t_ERR` with `value.error`. -/
inductive ZnResult where
  | ok (socket : ℤ) : ZnResult
  | err (error : ℤ) : ZnResult
deriving DecidableEq, Repr

/-- Modelled from the spec: the semantic error code for "every candidate
address failed to connect" (`_zn_err_t_TX_CONNECTION`, defined in a result
header that is not part of this slice).  Its concrete value is irrelevant
to every claim; only that it is the code stored on the connect-exhaustion
path. -/
def _zn_err_t_TX_CONNECTION : ℤ := -14

/-- Modelled from the spec: the semantic error code for a resolution
failure of the UDP local wildcard address (`_zn_err_t_INVALID_LOCATOR`,
defined in a result header that is not part of this slice). -/
def _zn_err_t_INVALID_LOCATOR : ℤ := -15

/-! ### Resolver: `_zn_create_tcp_endpoint` / `_zn_create_udp_endpoint`

`getaddrinfo` is modelled by its return value `ret : ℤ` (0 on success)
together with the linked `addrinfo` chain it produced, as a list.  Each
resolver model returns `none` for the C `NULL`, and otherwise the pair
`(retained nodes, freed nodes)`: the C code keeps the head `addr` and
calls `freeaddrinfo(addr->ai_next)` on the rest of the chain. -/

/-- TCP resolver `_zn_create_tcp_endpoint`: returns `NULL` when
`getaddrinfo(...) != 0`; otherwise frees `addr->ai_next` and returns
`addr`, i.e. retains only the head node of the resolved chain. -/
def _zn_create_tcp_endpoint (ret : ℤ) (chain : List ℕ) :
    Option (List ℕ × List ℕ) :=
  if ret ≠ 0 then none
  else some (chain.take 1, chain.drop 1)

/-- UDP resolver `_zn_create_udp_endpoint`: identical to the TCP
resolver except that the failure test is `getaddrinfo(...) < 0` rather
than `!= 0`. -/
def _zn_create_udp_endpoint (ret : ℤ) (chain : List ℕ) :
    Option (List ℕ × List ℕ) :=
  if ret < 0 then none
  else some (chain.take 1, chain.drop 1)

/-! ### TCP open: `_zn_tcp_open` -/

/-- Outcomes of the OS calls made by `_zn_tcp_open`, in program order:
the return value of `socket()`, the return values of the two
`setsockopt` calls (`SO_KEEPALIVE` then `SO_LINGER`) and the `errno`
observed after each failed one. -/
structure TcpEnv where
  socketRet : ℤ
  keepaliveRet : ℤ
  keepaliveErrno : ℤ
  lingerRet : ℤ
  lingerErrno : ℤ
deriving DecidableEq, Repr

/-- Everything a run of `_zn_tcp_open` did: its result, the descriptors
it closed, the `struct linger` value `(l_onoff, l_linger)` it passed to
`setsockopt(SO_LINGER)` when that call was reached, and how many
`connect` calls it made. -/
structure TcpOutcome where
  result : ZnResult
  closed : List ℤ
  lingerSet : Option (ℕ × ℕ)
  connectsTried : ℕ
deriving DecidableEq, Repr

/-- Connect fallback loop of `_zn_tcp_open`, over the list of `connect`
return values for the successive `addrinfo` candidates (negative means
the connect failed).  Mirrors:
`for (it = raddr; it != NULL; it = it->ai_next) { if (connect(...) < 0)
{ if (it->ai_next == NULL) { r = err TX_CONNECTION; return r; } } else
break; }`.  Also counts the `connect` calls made. -/
def tcpConnectLoop (sock : ℤ) : List ℤ → ZnResult × ℕ
  | [] => (ZnResult.ok sock, 0)
  | c :: rest =>
    if c < 0 then
      match rest with
      | [] => (ZnResult.err _zn_err_t_TX_CONNECTION, 1)
      | r :: rs =>
        ((tcpConnectLoop sock (r :: rs)).1, (tcpConnectLoop sock (r :: rs)).2 + 1)
    else (ZnResult.ok sock, 1)

/-- Fuel-indexed variant of `tcpConnectLoop`, used to state that the
fallback loop reaches a return within a bounded number of iterations:
`none` means the fuel ran out before the loop returned. -/
def tcpConnectLoopFuel : ℕ → ℤ → List ℤ → Option (ZnResult × ℕ)
  | 0, _, _ => none
  | _ + 1, sock, [] => some (ZnResult.ok sock, 0)
  | fuel + 1, sock, c :: rest =>
    if c < 0 then
      match rest with
      | [] => some (ZnResult.err _zn_err_t_TX_CONNECTION, 1)
      | r :: rs =>
        (tcpConnectLoopFuel fuel sock (r :: rs)).map (fun p => (p.1, p.2 + 1))
    else some (ZnResult.ok sock, 1)

/-- Specification-side description of the fallback policy, following the
spec's words rather than the C loop: find the first candidate (in list
order) whose connect succeeds; on success at index `i` the result is
`Ok(handle)` after `i + 1` attempts; if no candidate succeeds the result
is `Err(connection-failure)` after attempting every candidate. -/
def firstSuccessIdx : List ℤ → Option ℕ
  | [] => none
  | c :: rest => if 0 ≤ c then some 0 else (firstSuccessIdx rest).map (· + 1)

/-- Specification-side fallback outcome (see `firstSuccessIdx`). -/
def fallbackSpec (sock : ℤ) (cs : List ℤ) : ZnResult × ℕ :=
  match firstSuccessIdx cs with
  | some i => (ZnResult.ok sock, i + 1)
  | none => (ZnResult.err _zn_err_t_TX_CONNECTION, cs.length)

/-- Model of `_zn_tcp_open`, with `ZN_TRANSPORT_LEASE` (a configuration
macro in milliseconds, not part of this slice) as the parameter `lease`
and the `connect` outcomes per candidate as `connects`.  The linger
value set is `l_onoff = 1`, `l_linger = ZN_TRANSPORT_LEASE / 1000`
(C integer division).  Note that the connect-exhaustion error path
returns without closing the socket. -/
def _zn_tcp_open (lease : ℕ) (env : TcpEnv) (connects : List ℤ) :
    TcpOutcome :=
  if env.socketRet < 0 then
    ⟨ZnResult.err env.socketRet, [], none, 0⟩
  else if env.keepaliveRet < 0 then
    ⟨ZnResult.err env.keepaliveErrno, [env.socketRet], none, 0⟩
  else if env.lingerRet < 0 then
    ⟨ZnResult.err env.lingerErrno, [env.socketRet],
      some (1, lease / 1000), 0⟩
  else
    ⟨(tcpConnectLoop env.socketRet connects).1, [],
      some (1, lease / 1000), (tcpConnectLoop env.socketRet connects).2⟩

/-! ### UDP open: `_zn_udp_open` -/

/-- Outcomes of the OS calls made by `_zn_udp_open`, in program order:
the return value of the local-wildcard `getaddrinfo(NULL, "0", ...)`,
of `socket()`, and of the `SO_RCVTIMEO` / `SO_SNDTIMEO` `setsockopt`
calls with the `errno` after each failed one. -/
structure UdpEnv where
  laddrRet : ℤ
  socketRet : ℤ
  rcvRet : ℤ
  rcvErrno : ℤ
  sndRet : ℤ
  sndErrno : ℤ
deriving DecidableEq, Repr

/-- Everything a run of `_zn_udp_open` did: its result and the
descriptors it closed. -/
structure UdpOutcome where
  result : ZnResult
  closed : List ℤ
deriving DecidableEq, Repr

/-- Model of `_zn_udp_open`: resolve the local wildcard (failure yields
`INVALID_LOCATOR`), create the socket (failure yields the raw negative
return, nothing to close), set the receive and send timeouts (a
`setsockopt` returning `-1` yields `errno` after closing the socket). -/
def _zn_udp_open (env : UdpEnv) : UdpOutcome :=
  if env.laddrRet ≠ 0 then
    ⟨ZnResult.err _zn_err_t_INVALID_LOCATOR, []⟩
  else if env.socketRet < 0 then
    ⟨ZnResult.err env.socketRet, []⟩
  else if env.rcvRet = -1 then
    ⟨ZnResult.err env.rcvErrno, [env.socketRet]⟩
  else if env.sndRet = -1 then
    ⟨ZnResult.err env.sndErrno, [env.socketRet]⟩
  else
    ⟨ZnResult.ok env.socketRet, []⟩

/-! ### Exact-length read: `_zn_tcp_read_exact` / `_zn_udp_read_exact`

```
int n = len; int rb;
do {
    rb = _zn_tcp_read(sock, ptr, n);
    if (rb < 0) return rb;
    n -= rb;
    ptr = ptr + (len - n);
} while (n > 0);
return len;
```

Two views of this loop are used.  `readExactStream` tracks only the
returned value, with the successive `recv` return values given as a
stream `reads : ℕ → ℤ` (index `k` is the value of the `k`-th `recv`
call); it is fuel-indexed so that non-termination of the C loop is
expressible as `none` for every fuel.  `readExactBuf` additionally
tracks the buffer: `recv` outcomes are given as the list of delivered
fragments, and the model records which buffer offset each byte is
written to, following the C pointer update
`n -= rb; ptr = ptr + (len - n);` exactly. -/

/-- Fuel-indexed run of the `read_exact` do-while loop, returning
`none` when the fuel is exhausted before the loop returns.  `k` is the
index of the next `recv` call (its value `rb` is `reads k`), `n` the
remaining count, `len` the requested total. -/
def readExactStream (reads : ℕ → ℤ) : ℕ → ℕ → ℤ → ℤ → Option ℤ
  | 0, _, _, _ => none
  | fuel + 1, k, n, len =>
    if reads k < 0 then some (reads k)
    else if n - reads k > 0 then
      readExactStream reads fuel (k + 1) (n - reads k) len
    else some len

/-- Entry point of `_zn_tcp_read_exact` under the stream view: the loop
starts with `n = len` and the first `recv` call has index 0. -/
def _zn_tcp_read_exact (reads : ℕ → ℤ) (fuel : ℕ) (len : ℤ) : Option ℤ :=
  readExactStream reads fuel 0 len len

/-- Entry point of `_zn_udp_read_exact`: textually the same loop as
`_zn_tcp_read_exact`, with `recv` on a datagram socket underneath. -/
def _zn_udp_read_exact (reads : ℕ → ℤ) (fuel : ℕ) (len : ℤ) : Option ℤ :=
  readExactStream reads fuel 0 len len

/-- Statement that the `read_exact` loop returns after some finite
number of `recv` calls (the loop body is shared verbatim between
`_zn_tcp_read_exact` and `_zn_udp_read_exact`). -/
def ReadExactTerminates (reads : ℕ → ℤ) (len : ℤ) : Prop :=
  ∃ fuel, _zn_tcp_read_exact reads fuel len ≠ none

/-- Helper writing the bytes of one delivered fragment into the buffer
model at consecutive offsets starting at `ptr` (the buffer is a partial
map from offset to byte; unwritten offsets are `none`). -/
def writeFrag (mem : ℤ → Option ℕ) (ptr : ℤ) : List ℕ → (ℤ → Option ℕ)
  | [] => mem
  | b :: bs =>
    writeFrag (fun i => if i = ptr then some b else mem i) (ptr + 1) bs

/-- Buffer-tracking run of the `read_exact` loop on successfully
delivered fragments (`rb = frag.length ≥ 0` for each `recv`; error
returns are covered by `readExactStream`).  Each iteration writes the
fragment at the current `ptr`, then performs
`n' = n - rb` and `ptr' = ptr + (len - n')` exactly as the C code does.
Returns `none` when the fragments are exhausted before the loop
returns. -/
def readExactBuf : List (List ℕ) → (ℤ → Option ℕ) → ℤ → ℤ → ℤ →
    Option (ℤ × (ℤ → Option ℕ))
  | [], _, _, _, _ => none
  | frag :: rest, mem, ptr, n, len =>
    if n - (frag.length : ℤ) > 0 then
      readExactBuf rest (writeFrag mem ptr frag)
        (ptr + (len - (n - (frag.length : ℤ)))) (n - (frag.length : ℤ)) len
    else some (len, writeFrag mem ptr frag)

/-- Entry point of `_zn_tcp_read_exact` under the buffer view: `ptr`
starts at offset 0 and `n = len`, on an initially unwritten buffer. -/
def readExactBufRun (frags : List (List ℕ)) (len : ℤ) :
    Option (ℤ × (ℤ → Option ℕ)) :=
  readExactBuf frags (fun _ => none) 0 len len

/-! ## Helper lemmas -/

/-- Unfolding lemma for `firstSuccessIdx` on a cons cell. -/
theorem firstSuccessIdx_cons (c : ℤ) (rest : List ℤ) :
    firstSuccessIdx (c :: rest) =
      if 0 ≤ c then some 0 else (firstSuccessIdx rest).map (· + 1) := rfl

/-- On every non-empty candidate list the C connect loop computes exactly
the spec-side fallback outcome: `Ok` after `i + 1` attempts at the first
succeeding index `i`, or `Err(TX_CONNECTION)` after attempting every
candidate. -/
theorem tcpConnectLoop_eq_fallbackSpec (sock : ℤ) :
    ∀ cs : List ℤ, cs ≠ [] → tcpConnectLoop sock cs = fallbackSpec sock cs := by
  intro cs
  induction cs with
  | nil => intro h; exact absurd rfl h
  | cons c rest ih =>
    intro _
    cases rest with
    | nil =>
      by_cases hc : c < 0
      · simp [tcpConnectLoop, fallbackSpec, firstSuccessIdx_cons, hc,
          not_le.mpr hc, firstSuccessIdx]
      · simp [tcpConnectLoop, fallbackSpec, firstSuccessIdx_cons, hc,
          not_lt.mp hc]
    | cons r rs =>
      by_cases hc : c < 0
      · have h2 := ih (by simp)
        simp only [tcpConnectLoop, if_pos hc, h2, fallbackSpec,
          firstSuccessIdx_cons c (r :: rs), if_neg (not_le.mpr hc)]
        cases hfi : firstSuccessIdx (r :: rs) with
        | none => simp [hfi, List.length]
        | some i => simp [hfi]
      · simp [tcpConnectLoop, fallbackSpec, firstSuccessIdx_cons, hc,
          not_lt.mp hc]

/-- When every `recv` returns 0 bytes (orderly peer close) and bytes are
still missing, the `read_exact` loop never reaches a return, for any
amount of fuel. -/
theorem readExactStream_zero_reads :
    ∀ (fuel k : ℕ) (n len : ℤ), 0 < n →
      readExactStream (fun _ => 0) fuel k n len = none := by
  intro fuel
  induction fuel with
  | zero => intro k n len _; rfl
  | succ f ih =>
    intro k n len hn
    simp only [readExactStream]
    rw [if_neg (by omega), if_pos (by omega)]
    exact ih (k + 1) (n - 0) len (by omega)

/-- When every `recv` result is an error or delivers at least one byte,
the `read_exact` loop returns within `n` iterations (fuel `m + 1`
suffices whenever `n ≤ m`). -/
theorem readExactStream_pos_ne_none (reads : ℕ → ℤ) (len : ℤ)
    (h : ∀ k, reads k < 0 ∨ 1 ≤ reads k) :
    ∀ (m k : ℕ) (n : ℤ), n ≤ (m : ℤ) →
      readExactStream reads (m + 1) k n len ≠ none := by
  intro m
  induction m with
  | zero =>
    intro k n hn
    simp only [readExactStream]
    rcases h k with hk | hk
    · rw [if_pos hk]; simp
    · rw [if_neg (by omega), if_neg (by omega)]; simp
  | succ f ih =>
    intro k n hn
    simp only [readExactStream]
    rcases h k with hk | hk
    · rw [if_pos hk]; simp
    · rw [if_neg (by omega)]
      by_cases hp : n - reads k > 0
      · rw [if_pos hp]
        exact ih (k + 1) (n - reads k) (by omega)
      · rw [if_neg hp]; simp

/-- The connect fallback loop always returns within one iteration per
candidate: fuel `length + 1` never runs out. -/
theorem tcpConnectLoopFuel_length (sock : ℤ) :
    ∀ cs : List ℤ, tcpConnectLoopFuel (cs.length + 1) sock cs ≠ none := by
  intro cs
  induction cs with
  | nil => simp [tcpConnectLoopFuel]
  | cons c rest ih =>
    cases rest with
    | nil =>
      have key : tcpConnectLoopFuel ([c].length + 1) sock [c] =
          if c < 0 then some (ZnResult.err _zn_err_t_TX_CONNECTION, 1)
          else some (ZnResult.ok sock, 1) := rfl
      rw [key]
      split_ifs <;> simp
    | cons r rs =>
      have key : tcpConnectLoopFuel ((c :: r :: rs).length + 1) sock (c :: r :: rs) =
          if c < 0 then
            (tcpConnectLoopFuel ((r :: rs).length + 1) sock (r :: rs)).map
              (fun p => (p.1, p.2 + 1))
          else some (ZnResult.ok sock, 1) := rfl
      rw [key]
      split_ifs with hc
      · cases hx : tcpConnectLoopFuel ((r :: rs).length + 1) sock (r :: rs) with
        | none => exact absurd hx ih
        | some p => simp [hx]
      · simp

/-- Characterization of every value the `read_exact` loop can return: a
non-negative return is exactly `len`, and a negative return is the value
of the first failing `recv` (every earlier `recv` returned
non-negatively). -/
theorem readExactStream_some_spec (reads : ℕ → ℤ) (len : ℤ) (hlen : 0 ≤ len) :
    ∀ (fuel k : ℕ) (n v : ℤ), readExactStream reads fuel k n len = some v →
      (0 ≤ v → v = len) ∧
      (v < 0 → ∃ m, k ≤ m ∧ v = reads m ∧
        ∀ j, k ≤ j → j < m → 0 ≤ reads j) := by
  intro fuel
  induction fuel with
  | zero => intro k n v h; exact absurd h (by simp [readExactStream])
  | succ f ih =>
    intro k n v h
    simp only [readExactStream] at h
    by_cases h1 : reads k < 0
    · rw [if_pos h1] at h
      have hv : v = reads k := by simpa using h.symm
      constructor
      · intro hge; omega
      · intro _
        refine ⟨k, le_refl k, hv, ?_⟩
        intro j hj1 hj2
        omega
    · rw [if_neg h1] at h
      by_cases h2 : n - reads k > 0
      · rw [if_pos h2] at h
        obtain ⟨a, b⟩ := ih (k + 1) (n - reads k) v h
        refine ⟨a, ?_⟩
        intro hneg
        obtain ⟨m, hm1, hm2, hm3⟩ := b hneg
        refine ⟨m, by omega, hm2, ?_⟩
        intro j hj1 hj2
        by_cases hjk : j = k
        · subst hjk; omega
        · exact hm3 j (by omega) hj2
      · rw [if_neg h2] at h
        have hv : v = len := by simpa using h.symm
        constructor
        · intro _; exact hv
        · intro hneg; omega

/-! ## Claims -/

/-- C1: for every (non-empty) endpoint candidate list handed to
`_zn_tcp_open` whose socket and option setup succeed, the connect
fallback tries the candidates in list order; at the first candidate
whose connect succeeds it stops (having made exactly `i + 1` connect
calls for first success at index `i`) and returns `Ok` with the socket
handle; a connect failure on a non-last candidate is swallowed; if every
candidate fails, the result is `Err(_zn_err_t_TX_CONNECTION)` after
attempting every candidate. -/
theorem C1_tcp_open_fallback (lease : ℕ) (env : TcpEnv) (connects : List ℤ)
    (hsock : 0 ≤ env.socketRet) (hka : 0 ≤ env.keepaliveRet)
    (hlg : 0 ≤ env.lingerRet) (hne : connects ≠ []) :
    ((_zn_tcp_open lease env connects).result,
      (_zn_tcp_open lease env connects).connectsTried) =
      fallbackSpec env.socketRet connects := by
  unfold _zn_tcp_open
  rw [if_neg (by omega), if_neg (by omega), if_neg (by omega)]
  exact tcpConnectLoop_eq_fallbackSpec env.socketRet connects hne

/-- Witness for C1 at socket 7 and candidates `[-1, 3]` (first connect
fails, second succeeds). -/
theorem C1_tcp_open_fallback_witness :
    ((_zn_tcp_open 0 ⟨7, 0, 0, 0, 0⟩ [-1, 3]).result,
      (_zn_tcp_open 0 ⟨7, 0, 0, 0, 0⟩ [-1, 3]).connectsTried) =
      fallbackSpec 7 [-1, 3] :=
  C1_tcp_open_fallback 0 ⟨7, 0, 0, 0, 0⟩ [-1, 3] (by decide) (by decide)
    (by decide) (by decide)

/-- C2: contrary to the claim that TCP retains the full resolved chain
for the connect fallback, `_zn_create_tcp_endpoint` frees every node
after the head (`freeaddrinfo(addr->ai_next)`), exactly like the UDP
resolver: on a successful 2-address resolution it retains only the first
address and releases the second, and the retained list is not the full
chain. -/
theorem C2_tcp_endpoint_tail_freed :
    _zn_create_tcp_endpoint 0 [1, 2] = some ([1], [2]) ∧
    ([1] : List ℕ) ≠ [1, 2] ∧
    _zn_create_udp_endpoint 0 [6, 9] = some ([6], [9]) := by
  decide

/-- C3: contrary to the claim that `read_exact` reassembles a fragmented
payload exactly, the pointer update `ptr = ptr + (len - n)` advances the
already-advanced pointer by the cumulative byte count, so with payload
`[10, 20, 30]` delivered in three 1-byte fragments the third byte is
written at offset 3 instead of 2: the function still returns 3, but
offset 2 of the buffer is never written and the first 3 bytes do not
equal the payload.  With at most two fragments (third conjunct) the
buffer is still correct, which is why the slip stays latent. -/
theorem C3_read_exact_buffer_corruption :
    (readExactBufRun [[10], [20], [30]] 3).map
        (fun p => (p.1, p.2 0, p.2 1, p.2 2, p.2 3)) =
      some (3, some 10, some 20, none, some 30) ∧
    (readExactBufRun [[10], [20], [30]] 3).map
        (fun p => [p.2 0, p.2 1, p.2 2]) ≠
      some [some 10, some 20, some 30] ∧
    (readExactBufRun [[10], [20, 30]] 3).map
        (fun p => (p.1, p.2 0, p.2 1, p.2 2)) =
      some (3, some 10, some 20, some 30) := by
  refine ⟨?_, ?_, ?_⟩ <;> simp [readExactBufRun, readExactBuf, writeFrag]

/-- C4: contrary to the claim that `read_exact` fails when the peer
closes mid-transfer, the loop never tests `rb == 0`; with 2 bytes
expected and every `recv` returning 0 (orderly peer close), the loop
re-issues `recv` forever and never returns — it neither fails nor
returns a short buffer. -/
theorem C4_read_exact_zero_read_diverges :
    ReadExactTerminates (fun _ => 0) 2 = False := by
  apply eq_false
  rintro ⟨fuel, h⟩
  exact h (readExactStream_zero_reads fuel 0 2 2 (by norm_num))

/-- C5 counterexample: the claim allows each underlying read result to
be any non-negative value up to the remaining count, but with 1 byte
expected and every `recv` returning 0 the `read_exact` loop never
reaches a return. -/
theorem C5_counterexample_zero_reads :
    ReadExactTerminates (fun _ => 0) 1 = False := by
  apply eq_false
  rintro ⟨fuel, h⟩
  exact h (readExactStream_zero_reads fuel 0 1 1 (by norm_num))

/-- C5 (amended): the exact-read accumulation loop reaches a return for
every read-result sequence in which each result is an error or delivers
at least one byte, and the multi-address fallback loop reaches a return
for every finite candidate list (one iteration per candidate). -/
theorem C5_loops_terminate (reads : ℕ → ℤ) (len sock : ℤ) (cs : List ℤ)
    (h : ∀ k, reads k < 0 ∨ 1 ≤ reads k) :
    ReadExactTerminates reads len ∧
      tcpConnectLoopFuel (cs.length + 1) sock cs ≠ none := by
  constructor
  · exact ⟨len.toNat + 1,
      readExactStream_pos_ne_none reads len h len.toNat 0 len (Int.self_le_toNat len)⟩
  · exact tcpConnectLoopFuel_length sock cs

/-- Witness for the amended C5 at 1-byte reads, length 3, and the
all-failing candidate list `[-1, -2]`. -/
theorem C5_loops_terminate_witness :
    ReadExactTerminates (fun _ => 1) 3 ∧
      tcpConnectLoopFuel (([-1, -2] : List ℤ).length + 1) 7 [-1, -2] ≠ none :=
  C5_loops_terminate (fun _ => 1) 3 7 [-1, -2]
    (fun _ => Or.inr (by norm_num))

/-- C6: contrary to the claim that every post-creation failure path
closes the just-created socket, the TCP connect-exhaustion path returns
`Err(_zn_err_t_TX_CONNECTION)` without closing descriptor 7 (first two
conjuncts), while an option-setting failure does close it (third
conjunct) — the descriptor leaks exactly on the connect-failure path. -/
theorem C6_connect_failure_no_close :
    (_zn_tcp_open 10000 ⟨7, 0, 0, 0, 0⟩ [-1]).result =
      ZnResult.err _zn_err_t_TX_CONNECTION ∧
    (_zn_tcp_open 10000 ⟨7, 0, 0, 0, 0⟩ [-1]).closed = [] ∧
    (_zn_tcp_open 10000 ⟨7, -1, 9, 0, 0⟩ []).closed = [7] := by
  decide

/-- C7: when `socket()` fails in `_zn_tcp_open` or `_zn_udp_open`
(negative return), the result is tagged `Err` and its error payload is
the raw value returned by the failing OS call, passed through
unchanged. -/
theorem C7_socket_creation_error_passthrough (lease : ℕ) (env : TcpEnv)
    (connects : List ℤ) (uenv : UdpEnv)
    (htcp : env.socketRet < 0) (hl : uenv.laddrRet = 0)
    (hudp : uenv.socketRet < 0) :
    (_zn_tcp_open lease env connects).result = ZnResult.err env.socketRet ∧
    (_zn_udp_open uenv).result = ZnResult.err uenv.socketRet := by
  constructor
  · unfold _zn_tcp_open
    rw [if_pos htcp]
  · unfold _zn_udp_open
    rw [if_neg (by simp [hl]), if_pos hudp]

/-- Witness for C7 at `socket()` returning -1 (TCP) and -3 (UDP). -/
theorem C7_socket_creation_error_passthrough_witness :
    (_zn_tcp_open 10000 ⟨-1, 0, 0, 0, 0⟩ []).result = ZnResult.err (-1) ∧
    (_zn_udp_open ⟨0, -3, 0, 0, 0, 0⟩).result = ZnResult.err (-3) := by
  exact C7_socket_creation_error_passthrough 10000 ⟨-1, 0, 0, 0, 0⟩ []
    ⟨0, -3, 0, 0, 0, 0⟩ (by decide) (by decide) (by decide)

/-- C8: contrary to the claim that both resolvers return `NULL` whenever
name resolution does not succeed, `_zn_create_udp_endpoint` tests
`getaddrinfo(...) < 0` instead of `!= 0`: a positive error return such
as 8 (`EAI_NONAME` on macOS, where the `EAI_*` codes are positive) is
treated as success and a non-`NULL` endpoint is returned, while the
sibling `_zn_create_tcp_endpoint` correctly returns `NULL` on the same
return value. -/
theorem C8_udp_resolver_positive_error :
    _zn_create_udp_endpoint 8 [5] = some ([5], []) ∧
    _zn_create_udp_endpoint 8 [5] ≠ none ∧
    _zn_create_tcp_endpoint 8 [5] = none := by
  decide

/-- C9: whenever `_zn_tcp_open` reaches the `SO_LINGER` call, the linger
option it passes is enabled (`l_onoff = 1`) with duration
`ZN_TRANSPORT_LEASE / 1000`, the configured lease interval in
milliseconds converted to whole seconds by truncating (flooring) integer
division: `1000 * (lease / 1000) ≤ lease < 1000 * (lease / 1000) +
1000`. -/
theorem C9_linger_lease_truncation (lease : ℕ) (env : TcpEnv)
    (connects : List ℤ)
    (hsock : 0 ≤ env.socketRet) (hka : 0 ≤ env.keepaliveRet) :
    (_zn_tcp_open lease env connects).lingerSet = some (1, lease / 1000) ∧
    1000 * (lease / 1000) ≤ lease ∧
    lease < 1000 * (lease / 1000) + 1000 := by
  unfold _zn_tcp_open
  rw [if_neg (by omega), if_neg (by omega)]
  refine ⟨?_, by omega, by omega⟩
  split_ifs <;> rfl

/-- Witness for C9 at a 2500 ms lease (truncated to 2 s). -/
theorem C9_linger_lease_truncation_witness :
    (_zn_tcp_open 2500 ⟨7, 0, 0, 0, 0⟩ []).lingerSet = some (1, 2500 / 1000) ∧
    1000 * (2500 / 1000) ≤ 2500 ∧
    2500 < 1000 * (2500 / 1000) + 1000 :=
  C9_linger_lease_truncation 2500 ⟨7, 0, 0, 0, 0⟩ [] (by decide) (by decide)

/-- C10: every value returned by `_zn_tcp_read_exact` or
`_zn_udp_read_exact` for a requested length `len ≥ 0` is either exactly
`len` (never a smaller non-negative count) or the negative value of the
first failing underlying read (all earlier reads having returned
non-negatively); and for a requested length of zero the loop still
performs one underlying read — returning after that single read with 0,
or with the read's own value if it failed. -/
theorem C10_read_exact_return (reads : ℕ → ℤ) (fuel : ℕ) (len v : ℤ)
    (hlen : 0 ≤ len)
    (hv : _zn_tcp_read_exact reads fuel len = some v ∨
      _zn_udp_read_exact reads fuel len = some v) :
    (0 ≤ v → v = len) ∧
    (v < 0 → ∃ k, v = reads k ∧ ∀ j, j < k → 0 ≤ reads j) ∧
    (len = 0 →
      _zn_tcp_read_exact reads 1 0 = some (if reads 0 < 0 then reads 0 else 0) ∧
      _zn_udp_read_exact reads 1 0 = some (if reads 0 < 0 then reads 0 else 0)) := by
  have hrun : readExactStream reads fuel 0 len len = some v := by
    rcases hv with h | h <;> exact h
  obtain ⟨a, b⟩ := readExactStream_some_spec reads len hlen fuel 0 len v hrun
  refine ⟨a, ?_, ?_⟩
  · intro hneg
    obtain ⟨m, _, hm2, hm3⟩ := b hneg
    exact ⟨m, hm2, fun j hj => hm3 j (Nat.zero_le j) hj⟩
  · intro _
    have hgoal : readExactStream reads 1 0 0 0 =
        some (if reads 0 < 0 then reads 0 else 0) := by
      simp only [readExactStream]
      by_cases h0 : reads 0 < 0
      · rw [if_pos h0, if_pos h0]
      · rw [if_neg h0, if_neg (by omega), if_neg h0]
    exact ⟨hgoal, hgoal⟩

/-- Witness for C10 at requested length 3 with a 1-byte first read
followed by an error read of -7: the loop returns -7, the first failing
read's value. -/
theorem C10_read_exact_return_witness :
    ((0 : ℤ) ≤ -7 → (-7 : ℤ) = 3) ∧
    ((-7 : ℤ) < 0 → ∃ k, (-7 : ℤ) = (fun j => if j = 0 then (1 : ℤ) else -7) k ∧
      ∀ j, j < k → (0 : ℤ) ≤ (fun j => if j = 0 then (1 : ℤ) else -7) j) ∧
    ((3 : ℤ) = 0 →
      _zn_tcp_read_exact (fun j => if j = 0 then (1 : ℤ) else -7) 1 0 =
        some (if (if (0 : ℕ) = 0 then (1 : ℤ) else -7) < 0
          then (if (0 : ℕ) = 0 then (1 : ℤ) else -7) else 0) ∧
      _zn_udp_read_exact (fun j => if j = 0 then (1 : ℤ) else -7) 1 0 =
        some (if (if (0 : ℕ) = 0 then (1 : ℤ) else -7) < 0
          then (if (0 : ℕ) = 0 then (1 : ℤ) else -7) else 0)) :=
  C10_read_exact_return (fun j => if j = 0 then (1 : ℤ) else -7) 5 3 (-7)
    (by decide)
    (Or.inl (by simp [_zn_tcp_read_exact, readExactStream]))
